import Mathlib

set_option linter.unusedVariables false

unseal Rat.mul Rat.inv Rat.add Rat.sub Rat.ofScientific

/-!
Verification of the decision/matching core of the multilingual mandi assistant:
the commodity resolver (PriceDiscoveryService), the negotiation advisor
(NegotiationService) and the term-preserving translation cache
(TranslationService).

Shallow embedding conventions:
* JavaScript numbers are modelled by the rationals; arithmetic in the source
  uses only +, -, *, /, Math.abs and Math.round, all exact on small rationals.
* Math.round rounds half toward positive infinity, hence jsRound q = floor (q + 1/2).
* Strings are Lean strings; the character-level logic works on List Char
  (every string in the repository is made of BMP code points, where one
  JavaScript UTF-16 code unit is one code point).
* JavaScript toLowerCase only ever acts on ASCII letters here (the Indic
  scripts involved have no case), so it is modelled by ASCII lowercasing.
* Dates are modelled by natural-number timestamps (milliseconds); Date.now()
  and new Date() observed inside one synchronous call return the same value,
  which the model passes in as a single parameter.
* Message/reasoning strings of negotiation suggestions interpolate raw
  JavaScript floating point renderings of numbers; those two display-only
  fields are not part of the model. All fields the claims mention
  (type, suggestedPrice, tone) are modelled exactly.
-/

/-- JavaScript Math.round: round half toward positive infinity. -/
def jsRound (q : ℚ) : ℤ := ⌊q + 1/2⌋

/-- JavaScript whitespace test, restricted to the whitespace that occurs in the
repository data (ordinary spaces, tabs, newlines). -/
def isWsChar (c : Char) : Bool := c.isWhitespace

/-- ASCII lowercasing of one character (JavaScript toLowerCase; the non-ASCII
characters appearing in this repository are caseless). -/
def lowerChar (c : Char) : Char :=
  if 'A' ≤ c ∧ c ≤ 'Z' then Char.ofNat (c.toNat + 32) else c

/-- Lowercase a character list. -/
def lowerChars (l : List Char) : List Char := l.map lowerChar

/-- JavaScript String.prototype.trim on a character list. -/
def trimChars (l : List Char) : List Char :=
  ((l.dropWhile isWsChar).reverse.dropWhile isWsChar).reverse

/-- JavaScript String.prototype.includes: substring test (an empty needle
matches everywhere). -/
def strIncludes : List Char → List Char → Bool
  | hay, needle =>
    if needle.isPrefixOf hay then true
    else
      match hay with
      | [] => false
      | _ :: t => strIncludes t needle

/-- String.prototype.includes lifted to strings. -/
def containsStr (hay needle : String) : Bool := strIncludes hay.data needle.data

section CommodityCatalog

/-- Unit of measurement of a catalog record (samplePrices.ts). -/
inductive CommodityUnit | kg | quintal
deriving DecidableEq

/-- Price trend of a catalog record. -/
inductive PriceTrend | up | down | stable
deriving DecidableEq

/-- Category tag of a catalog record. -/
inductive CommodityCategory | vegetable | grain | pulse | cashCrop
deriving DecidableEq

/-- CommodityPrice record from src/data/samplePrices.ts.  The runtime
timestamp field (new Date() at module load) carries no information used by
any function and is omitted. -/
structure CommodityPrice where
  id : String
  name : String
  nameHindi : String
  nameTamil : Option String
  priceMin : ℚ
  priceMax : ℚ
  unit : CommodityUnit
  market : String
  trend : PriceTrend
  changePercent : ℚ
  icon : String
  category : CommodityCategory
  aliases : List String
deriving DecidableEq

def tomatoRecord : CommodityPrice :=
  { id := "tomato", name := "Tomato", nameHindi := "टमाटर", nameTamil := some "தக்காளி"
    priceMin := 18, priceMax := 22, unit := .kg, market := "Delhi Azadpur Mandi"
    trend := .up, changePercent := 5, icon := "🍅", category := .vegetable
    aliases := ["tomato", "tamatar", "टमाटर", "tomatoes"] }

def onionRecord : CommodityPrice :=
  { id := "onion", name := "Onion", nameHindi := "प्याज", nameTamil := some "வெங்காயம்"
    priceMin := 14, priceMax := 18, unit := .kg, market := "Mumbai Vashi Mandi"
    trend := .stable, changePercent := 0, icon := "🧅", category := .vegetable
    aliases := ["onion", "pyaz", "प्याज", "onions", "kanda"] }

def wheatRecord : CommodityPrice :=
  { id := "wheat", name := "Wheat", nameHindi := "गेहूं", nameTamil := some "கோதுமை"
    priceMin := 2100, priceMax := 2250, unit := .quintal, market := "Punjab Khanna Mandi"
    trend := .up, changePercent := 3.5, icon := "🌾", category := .grain
    aliases := ["wheat", "gehun", "गेहूं", "gehu"] }

def potatoRecord : CommodityPrice :=
  { id := "potato", name := "Potato", nameHindi := "आलू", nameTamil := some "உருளைக்கிழங்கு"
    priceMin := 12, priceMax := 16, unit := .kg, market := "Uttar Pradesh Agra Mandi"
    trend := .down, changePercent := -2, icon := "🥔", category := .vegetable
    aliases := ["potato", "aloo", "आलू", "potatoes", "alu"] }

def riceRecord : CommodityPrice :=
  { id := "rice", name := "Rice", nameHindi := "चावल", nameTamil := some "அரிசி"
    priceMin := 2800, priceMax := 3200, unit := .quintal, market := "Haryana Karnal Mandi"
    trend := .stable, changePercent := 0.5, icon := "🍚", category := .grain
    aliases := ["rice", "chawal", "चावल", "dhan"] }

def cottonRecord : CommodityPrice :=
  { id := "cotton", name := "Cotton", nameHindi := "कपास", nameTamil := some "பருத்தி"
    priceMin := 5800, priceMax := 6200, unit := .quintal, market := "Gujarat Rajkot Mandi"
    trend := .up, changePercent := 4, icon := "🌱", category := .cashCrop
    aliases := ["cotton", "kapas", "कपास", "rui"] }

def sugarcaneRecord : CommodityPrice :=
  { id := "sugarcane", name := "Sugarcane", nameHindi := "गन्ना", nameTamil := some "கரும்பு"
    priceMin := 280, priceMax := 320, unit := .quintal, market := "Maharashtra Kolhapur Mandi"
    trend := .stable, changePercent := 1, icon := "🎋", category := .cashCrop
    aliases := ["sugarcane", "ganna", "गन्ना", "ikku"] }

def pulsesRecord : CommodityPrice :=
  { id := "pulses", name := "Pulses (Tur Dal)", nameHindi := "दाल (तूर)", nameTamil := some "பருப்பு"
    priceMin := 8500, priceMax := 9200, unit := .quintal, market := "Madhya Pradesh Indore Mandi"
    trend := .down, changePercent := -1.5, icon := "🫘", category := .pulse
    aliases := ["pulses", "dal", "दाल", "tur", "arhar", "toor"] }

def chilliRecord : CommodityPrice :=
  { id := "chilli", name := "Green Chilli", nameHindi := "हरी मिर्च", nameTamil := some "பச்சை மிளகாய்"
    priceMin := 25, priceMax := 35, unit := .kg, market := "Andhra Pradesh Guntur Mandi"
    trend := .up, changePercent := 8, icon := "🌶️", category := .vegetable
    aliases := ["chilli", "mirch", "मिर्च", "chili", "pepper", "hari mirch"] }

def cabbageRecord : CommodityPrice :=
  { id := "cabbage", name := "Cabbage", nameHindi := "पत्तागोभी", nameTamil := some "முட்டைகோஸ்"
    priceMin := 8, priceMax := 12, unit := .kg, market := "Karnataka Bangalore Mandi"
    trend := .stable, changePercent := 0, icon := "🥬", category := .vegetable
    aliases := ["cabbage", "patta gobhi", "पत्तागोभी", "bandh gobi"] }

/-- The static commodity catalog SAMPLE_PRICES, in source order. -/
def SAMPLE_PRICES : List CommodityPrice :=
  [tomatoRecord, onionRecord, wheatRecord, potatoRecord, riceRecord,
   cottonRecord, sugarcaneRecord, pulsesRecord, chilliRecord, cabbageRecord]

end CommodityCatalog

section CommodityResolver

/-- Collapse every run of whitespace into a single space
(the replace of the whitespace-run regex with a space in normalizeName). -/
def collapseWs : List Char → List Char
  | [] => []
  | [c] => [if isWsChar c then ' ' else c]
  | c :: d :: t =>
    if isWsChar c && isWsChar d then collapseWs (d :: t)
    else (if isWsChar c then ' ' else c) :: collapseWs (d :: t)

/-- Global removal of the filler-word alternation price|rate|bhav|cost|value
in normalizeName.  The input is already lowercased, so the case-insensitive
flag reduces to literal matching; alternatives are tried in source order.
The fuel argument only bounds the recursion (each step consumes at least one
character, so any fuel of at least the list length is sufficient). -/
def removeFillerAux : ℕ → List Char → List Char
  | 0, l => l
  | _, [] => []
  | fuel + 1, l@(c :: t) =>
    if "price".data.isPrefixOf l then removeFillerAux fuel (t.drop 4)
    else if "rate".data.isPrefixOf l then removeFillerAux fuel (t.drop 3)
    else if "bhav".data.isPrefixOf l then removeFillerAux fuel (t.drop 3)
    else if "cost".data.isPrefixOf l then removeFillerAux fuel (t.drop 4)
    else if "value".data.isPrefixOf l then removeFillerAux fuel (t.drop 4)
    else c :: removeFillerAux fuel t

/-- Run the filler-word removal with sufficient fuel. -/
def removeFiller (l : List Char) : List Char := removeFillerAux l.length l

/-- normalizeName from PriceDiscoveryService: lowercase, trim, collapse
internal whitespace, strip price-related filler words, trim again. -/
def normalizeName (name : String) : String :=
  String.mk (trimChars (removeFiller (collapseWs (trimChars (lowerChars name.data)))))

/-- calculateSimilarity from PriceDiscoveryService: exact match scores 1,
containment scores 0.8, otherwise the Jaccard similarity of the two
character sets. -/
def calculateSimilarity (str1 str2 : String) : ℚ :=
  let s1 := lowerChars str1.data
  let s2 := lowerChars str2.data
  if s1 = s2 then 1
  else if strIncludes s1 s2 || strIncludes s2 s1 then 0.8
  else
    let chars1 := s1.dedup
    let chars2 := s2.dedup
    let inter := chars1.filter (fun c => chars2.contains c)
    let union := (chars1 ++ chars2).dedup
    (inter.length : ℚ) / (union.length : ℚ)

/-- The candidate strings scored for one catalog record: canonical name,
Hindi name, Tamil name (empty string when absent), then the aliases. -/
def searchTermsOf (c : CommodityPrice) : List String :=
  c.name :: c.nameHindi :: (c.nameTamil.getD "") :: c.aliases

/-- searchCommodity from PriceDiscoveryService: normalize the query, take the
maximum similarity over every (record, candidate string) pair with strict
improvement (first maximal match wins), and return the best record when the
best score exceeds 0.5. -/
def searchCommodity (query : String) : Option CommodityPrice :=
  let normalizedQuery := normalizeName query
  if normalizedQuery = "" then none
  else
    let best := SAMPLE_PRICES.foldl (fun acc commodity =>
      (searchTermsOf commodity).foldl (fun acc2 term =>
        let score := calculateSimilarity normalizedQuery (String.mk (lowerChars term.data))
        if score > acc2.2 then (some commodity, score) else acc2) acc)
      ((none : Option CommodityPrice), (0 : ℚ))
    if best.2 > 0.5 then best.1 else none

end CommodityResolver

section NegotiationAdvisor

/-- Discriminator of a negotiation suggestion. -/
inductive SuggestionType | counter | accept | reject | info
deriving DecidableEq

/-- Tone of a negotiation suggestion. -/
inductive Tone | polite | neutral | firm
deriving DecidableEq

/-- NegotiationSuggestion from NegotiationService.  The message and reasoning
strings interpolate JavaScript float renderings and are display-only; the
claims concern type, suggestedPrice and tone, which are modelled exactly.
Every suggested price in the source is a Math.round result, hence an integer. -/
structure NegotiationSuggestion where
  type : SuggestionType
  suggestedPrice : Option ℤ
  tone : Tone
deriving DecidableEq

/-- NegotiationContext from NegotiationService. -/
structure NegotiationContext where
  commodity : String
  marketPrice : Option ℚ
  currentOffer : ℚ
  previousOffers : List ℚ
  userLanguage : String
  vendorLanguage : String

/-- generateHighOfferSuggestion: counter at 5% above market, polite. -/
def generateHighOfferSuggestion (offer marketPrice : ℚ) (isFirstOffer : Bool) :
    NegotiationSuggestion :=
  let counterOffer := jsRound (marketPrice * 1.05)
  { type := .counter, suggestedPrice := some counterOffer, tone := .polite }

/-- generateLowOfferSuggestion: 5% below market; reject politely on a first
offer, counter firmly afterwards. -/
def generateLowOfferSuggestion (offer marketPrice : ℚ) (isFirstOffer : Bool) :
    NegotiationSuggestion :=
  let counterOffer := jsRound (marketPrice * 0.95)
  { type := if isFirstOffer then .reject else .counter
    suggestedPrice := some counterOffer
    tone := if isFirstOffer then .polite else .firm }

/-- generateFairOfferSuggestion: accept after prior counters, otherwise a
token counter slightly below the offer. -/
def generateFairOfferSuggestion (offer marketPrice : ℚ) (hasCountered : Bool) :
    NegotiationSuggestion :=
  if hasCountered then
    { type := .accept, suggestedPrice := none, tone := .polite }
  else
    let counterOffer := jsRound (offer * 0.98)
    { type := .counter, suggestedPrice := some counterOffer, tone := .polite }

/-- generateModerateOfferSuggestion: counter at the rounded market price
(the isHigh flag only changes the display message). -/
def generateModerateOfferSuggestion (offer marketPrice : ℚ) (isHigh : Bool) :
    NegotiationSuggestion :=
  let counterOffer := jsRound marketPrice
  if isHigh then
    { type := .counter, suggestedPrice := some counterOffer, tone := .polite }
  else
    { type := .counter, suggestedPrice := some counterOffer, tone := .polite }

/-- Catalog fallback used by getNegotiationSuggestion when the caller
supplies no usable market price: priceDiscoveryService.getPrice resolves the
commodity and the advisor averages its price range. -/
def catalogReferencePrice (commodity : String) : Option ℚ :=
  (searchCommodity commodity).map (fun c => (c.priceMin + c.priceMax) / 2)

/-- Reference-price resolution of getNegotiationSuggestion: a supplied
marketPrice is used when truthy (nonzero); a falsy marketPrice (absent or 0)
falls back to the catalog average. -/
def resolveReferencePrice (ctx : NegotiationContext) : Option ℚ :=
  match ctx.marketPrice with
  | some p => if p = 0 then catalogReferencePrice ctx.commodity else some p
  | none => catalogReferencePrice ctx.commodity

/-- The generic-advice suggestion returned when no market price is
obtainable: type info, neutral tone, no suggested price. -/
def noPriceInfoSuggestion : NegotiationSuggestion :=
  { type := .info, suggestedPrice := none, tone := .neutral }

/-- Offer classification of getNegotiationSuggestion (source lines 53-73):
compare the offer to the reference price by percentage difference and
dispatch to the per-band suggestion generators. -/
def classifyOffer (currentOffer referencePrice : ℚ) (previousOffers : List ℚ) :
    NegotiationSuggestion :=
  let difference := (currentOffer - referencePrice) / referencePrice * 100
  let isFirstOffer := previousOffers.isEmpty
  let hasCountered := !previousOffers.isEmpty
  if difference > 15 then
    generateHighOfferSuggestion currentOffer referencePrice isFirstOffer
  else if difference < -15 then
    generateLowOfferSuggestion currentOffer referencePrice isFirstOffer
  else if |difference| ≤ 5 then
    generateFairOfferSuggestion currentOffer referencePrice hasCountered
  else
    generateModerateOfferSuggestion currentOffer referencePrice (difference > 0)

/-- getNegotiationSuggestion from NegotiationService: resolve a reference
price (falsy check on the resolved value repeated as in the source), then
classify the offer by its percentage difference from the reference price. -/
def getNegotiationSuggestion (ctx : NegotiationContext) : NegotiationSuggestion :=
  match resolveReferencePrice ctx with
  | none => noPriceInfoSuggestion
  | some referencePrice =>
    if referencePrice = 0 then noPriceInfoSuggestion
    else classifyOffer ctx.currentOffer referencePrice ctx.previousOffers

/-- suggestCompromise from NegotiationService: polite counter at the rounded
midpoint of the two offers. -/
def suggestCompromise (yourLastOffer theirLastOffer : ℚ) : NegotiationSuggestion :=
  let midpoint := jsRound ((yourLastOffer + theirLastOffer) / 2)
  { type := .counter, suggestedPrice := some midpoint, tone := .polite }

end NegotiationAdvisor
section TranslationServiceDefs

/-- The ten supported language codes (SUPPORTED_LANGUAGES keys). -/
inductive LanguageCode | en | hi | ta | te | bn | mr | gu | kn | ml | pa
deriving DecidableEq

/-- Display names of the supported languages (SUPPORTED_LANGUAGES values). -/
def languageName : LanguageCode → String
  | .en => "English"
  | .hi => "Hindi"
  | .ta => "Tamil"
  | .te => "Telugu"
  | .bn => "Bengali"
  | .mr => "Marathi"
  | .gu => "Gujarati"
  | .kn => "Kannada"
  | .ml => "Malayalam"
  | .pa => "Punjabi"

/-- The commercial-term list COMMERCIAL_TERMS, in source order (the index in
this list is interpolated into the placeholder token). -/
def COMMERCIAL_TERMS : List String :=
  ["rupee", "rupees", "₹", "rs", "price", "rate", "cost",
   "kg", "kilogram", "quintal", "ton", "tonne", "litre", "liter",
   "grade", "quality", "premium", "standard",
   "mandi", "apmc", "wholesale", "retail", "market",
   "payment", "advance", "credit", "cash", "upi",
   "wheat", "rice", "dal", "onion", "potato", "tomato"]

/-- TranslationResult from TranslationService (timestamp as milliseconds). -/
structure TranslationResult where
  translatedText : String
  confidence : ℚ
  originalText : String
  fromLanguage : LanguageCode
  toLanguage : LanguageCode
  preservedTerms : List String
  timestamp : ℕ
deriving DecidableEq

/-- Cache key of the translation cache.  The source builds the string
fromLang ++ ":" ++ toLang ++ ":" ++ text.toLowerCase().trim(); since every
language code is a fixed colon-free two-letter string, that string is in
bijection with this triple. -/
structure CacheKey where
  fromLang : LanguageCode
  toLang : LanguageCode
  normText : String
deriving DecidableEq

/-- getCacheKey: language pair plus lowercased, trimmed text. -/
def getCacheKey (text : String) (fromLang toLang : LanguageCode) : CacheKey :=
  { fromLang := fromLang, toLang := toLang
    normText := String.mk (trimChars (lowerChars text.data)) }

/-- TranslationCache entry: key, wrapped result, usage counter, last-used
timestamp. -/
structure CacheEntry where
  key : CacheKey
  result : TranslationResult
  usageCount : ℕ
  lastUsed : ℕ
deriving DecidableEq

/-- The in-memory cache Map, in JavaScript Map insertion order.  Persistence
to localStorage (saveCacheToStorage / loadCacheFromStorage) only mirrors this
state and is not part of the model. -/
abbrev TranslationCache := List CacheEntry

/-- Maximum cache size (MAX_CACHE_SIZE). -/
def MAX_CACHE_SIZE : ℕ := 1000

/-- The review-flag threshold (CONFIDENCE_THRESHOLD). -/
def CONFIDENCE_THRESHOLD : ℚ := 0.85

/-- JavaScript Map.set: replace the entry in place when the key is present,
otherwise append. -/
def cacheSet (c : TranslationCache) (e : CacheEntry) : TranslationCache :=
  if c.any (fun x => x.key == e.key)
  then c.map (fun x => if x.key == e.key then e else x)
  else c ++ [e]

/-- getFromCache: on a hit, bump the usage counter, refresh the last-used
timestamp and return the stored result; a miss leaves the cache untouched. -/
def getFromCache (now : ℕ) (key : CacheKey) (c : TranslationCache) :
    Option TranslationResult × TranslationCache :=
  match c.find? (fun x => x.key == key) with
  | some e =>
    (some e.result, cacheSet c { e with usageCount := e.usageCount + 1, lastUsed := now })
  | none => (none, c)

/-- The scan of evictOldestCacheEntry: fold over the entries keeping the
first strict improvement below the running oldest time, which starts at
Date.now(). -/
def findOldestKey (now : ℕ) (c : TranslationCache) : Option CacheKey × ℕ :=
  c.foldl (fun acc e => if e.lastUsed < acc.2 then (some e.key, e.lastUsed) else acc)
    ((none : Option CacheKey), now)

/-- evictOldestCacheEntry: delete the entry found by the scan, when any
entry was last used strictly before now. -/
def evictOldestCacheEntry (now : ℕ) (c : TranslationCache) : TranslationCache :=
  match (findOldestKey now c).1 with
  | some k => c.filter (fun e => !(e.key == k))
  | none => c

/-- addToCache: evict first when the cache is at or above capacity, then
store the entry with usage count 1. -/
def addToCache (now : ℕ) (key : CacheKey) (result : TranslationResult)
    (c : TranslationCache) : TranslationCache :=
  let c1 := if MAX_CACHE_SIZE ≤ c.length then evictOldestCacheEntry now c else c
  cacheSet c1 { key := key, result := result, usageCount := 1, lastUsed := now }

/-- JavaScript word character (the regex class of letters, digits and the
underscore, which is what the word boundary assertion tests). -/
def isWordChar (c : Char) : Bool := c.isAlpha || c.isDigit || c == '_'

/-- A word boundary lies between two (optional, for the string edges)
characters exactly when their word-character status differs. -/
def boundaryBetween (a b : Option Char) : Bool :=
  (match a with | none => false | some c => isWordChar c) !=
  (match b with | none => false | some c => isWordChar c)

/-- Case-insensitive prefix test (the case-insensitive regex flag on a
literal word). -/
def ciPrefix : List Char → List Char → Bool
  | [], _ => true
  | _ :: _, [] => false
  | n :: ns, h :: hs => (lowerChar n == lowerChar h) && ciPrefix ns hs

/-- Whether the word-bounded, case-insensitive literal key matches at the
head of l, given the character immediately before this position. -/
def wordMatchHere (key : List Char) (prev : Option Char) (l : List Char) : Bool :=
  ciPrefix key l && boundaryBetween prev l.head? &&
    boundaryBetween (l.take key.length).getLast? (l.drop key.length).head?

/-- Replace every word-bounded, case-insensitive occurrence of key by repl
(a global regex replace; matches are located on the original text from left
to right without rescanning replacements).  The fuel argument only bounds
the recursion; every call supplies at least the list length. -/
def replaceWordAllAux (key repl : List Char) : ℕ → Option Char → List Char → List Char
  | 0, _, l => l
  | _, _, [] => []
  | fuel + 1, prev, l@(c :: t) =>
    if key.isEmpty then l
    else if wordMatchHere key prev l then
      repl ++ replaceWordAllAux key repl fuel (l.take key.length).getLast? (l.drop key.length)
    else c :: replaceWordAllAux key repl fuel (some c) t

/-- Global word-bounded case-insensitive replacement on strings. -/
def replaceWordAll (s key repl : List Char) : List Char :=
  replaceWordAllAux key repl (s.length + 1) none s

/-- Collect every word-bounded, case-insensitive occurrence of key (the
String.match call with a global case-insensitive word regex); the returned
substrings keep their original casing. -/
def wordMatchesAux (key : List Char) : ℕ → Option Char → List Char → List (List Char)
  | 0, _, _ => []
  | _, _, [] => []
  | fuel + 1, prev, l@(c :: t) =>
    if key.isEmpty then []
    else if wordMatchHere key prev l then
      l.take key.length ::
        wordMatchesAux key fuel (l.take key.length).getLast? (l.drop key.length)
    else wordMatchesAux key fuel (some c) t

/-- All word-bounded case-insensitive matches of key in s. -/
def wordMatches (s key : List Char) : List (List Char) :=
  wordMatchesAux key (s.length + 1) none s

/-- JavaScript String.prototype.replace with a plain string pattern: replace
the first literal occurrence only (no occurrence leaves the string
unchanged; no replacement string in this service contains dollar escapes). -/
def replaceFirst : List Char → List Char → List Char → List Char
  | s, pat, repl =>
    if pat.isPrefixOf s then repl ++ s.drop pat.length
    else
      match s with
      | [] => []
      | c :: t => c :: replaceFirst t pat repl

/-- Digit-or-comma class of the currency regex. -/
def isDigitComma (c : Char) : Bool := c.isDigit || c == ','

/-- The tail of the currency pattern after its currency marker: optional
whitespace, one or more digits or commas, then an optional dot-digits part
(consumed greedily). -/
def currencyTail (l : List Char) : Option (List Char) :=
  let ws := l.takeWhile isWsChar
  let rest1 := l.drop ws.length
  let digits := rest1.takeWhile isDigitComma
  if digits.isEmpty then none
  else
    let rest2 := rest1.drop digits.length
    match rest2 with
    | '.' :: r3 =>
      let frac := r3.takeWhile Char.isDigit
      if frac.isEmpty then some (ws ++ digits)
      else some (ws ++ digits ++ '.' :: frac)
    | _ => some (ws ++ digits)

/-- The currency alternation of extractCommercialTerms tried at one
position: a rupee sign followed by the currency tail, or a
case-insensitive rs with an optional dot followed by the currency tail. -/
def currencyMatchAt (l : List Char) : Option (List Char) :=
  match l with
  | '₹' :: rest => (currencyTail rest).map (fun tail => '₹' :: tail)
  | a :: b :: rest =>
    if (lowerChar a == 'r') && (lowerChar b == 's') then
      match rest with
      | '.' :: r2 =>
        match currencyTail r2 with
        | some tail => some (a :: b :: '.' :: tail)
        | none => (currencyTail rest).map (fun t => a :: b :: t)
      | _ => (currencyTail rest).map (fun t => a :: b :: t)
    else none
  | _ => none

/-- All matches of the global currency regex, scanning left to right and
continuing after each match.  The fuel argument only bounds the recursion;
every match consumes at least one character. -/
def currencyMatchesAux : ℕ → List Char → List (List Char)
  | 0, _ => []
  | _, [] => []
  | fuel + 1, l@(_ :: t) =>
    match currencyMatchAt l with
    | some m => m :: currencyMatchesAux fuel (l.drop m.length)
    | none => currencyMatchesAux fuel t

/-- All currency-amount matches in s. -/
def currencyMatches (s : List Char) : List (List Char) :=
  currencyMatchesAux (s.length + 1) s

/-- ASCII uppercasing of one character (JavaScript toUpperCase on the
term list, which is ASCII apart from the caseless rupee sign). -/
def upperChar (c : Char) : Char :=
  if 'a' ≤ c ∧ c ≤ 'z' then Char.ofNat (c.toNat - 32) else c

/-- extractCommercialTerms: first pull out currency amounts (matched on the
original text, replaced one first-occurrence at a time), then every
commercial term (matched word-bounded and case-insensitively on the current
working text, term by term in list order), recording (term, placeholder)
pairs in extraction order. -/
def extractCommercialTerms (text : String) : String × List (String × String) :=
  let cm := currencyMatches text.data
  let step1 := cm.enum.foldl
    (fun (acc : List Char × List (String × String)) (p : ℕ × List Char) =>
      let placeholder := "__CURRENCY_".data ++ (Nat.repr p.1).data ++ "__".data
      (replaceFirst acc.1 p.2 placeholder, acc.2 ++ [(String.mk p.2, String.mk placeholder)]))
    (text.data, [])
  let step2 := COMMERCIAL_TERMS.enum.foldl
    (fun (acc : List Char × List (String × String)) (p : ℕ × String) =>
      let ms := wordMatches acc.1 p.2.data
      ms.foldl
        (fun (acc2 : List Char × List (String × String)) m =>
          let placeholder := "__TERM_".data ++ (p.2.data.map upperChar) ++ "_".data ++
            (Nat.repr p.1).data ++ "__".data
          (replaceFirst acc2.1 m placeholder, acc2.2 ++ [(String.mk m, String.mk placeholder)]))
        acc)
    step1
  (String.mk step2.1, step2.2)

/-- restoreCommercialTerms: replace the first occurrence of each placeholder
by its original substring, in extraction order. -/
def restoreCommercialTerms (text : String) (preservedTerms : List (String × String)) : String :=
  String.mk (preservedTerms.foldl (fun acc p => replaceFirst acc p.2.data p.1.data) text.data)

/-- calculateConfidence: base 0.9, penalties for very short and very long
originals, forced to 0.5 when the translation equals the original despite
different languages, clamped to the unit interval. -/
def calculateConfidence (originalText translatedText : String)
    (fromLang toLang : LanguageCode) : ℚ :=
  let c1 : ℚ := 0.9
  let c2 := if originalText.length < 10 then c1 - 0.1 else c1
  let c3 := if originalText.length > 500 then c2 - 0.05 else c2
  let c4 := if originalText = translatedText ∧ fromLang ≠ toLang then 0.5 else c3
  max 0 (min 1 c4)

/-- Character-range test for mockLanguageDetection. -/
def hasCharInRange (s : String) (lo hi : ℕ) : Bool :=
  s.data.any (fun c => decide (lo ≤ c.toNat ∧ c.toNat ≤ hi))

/-- mockLanguageDetection: detect the language by Unicode script ranges, in
source test order, defaulting to English (only the detected code is used by
the translation path, so the confidence component is not modelled). -/
def mockLanguageDetection (text : String) : LanguageCode :=
  if hasCharInRange text 0x900 0x97F then .hi
  else if hasCharInRange text 0xB80 0xBFF then .ta
  else if hasCharInRange text 0xC00 0xC7F then .te
  else if hasCharInRange text 0x980 0x9FF then .bn
  else if hasCharInRange text 0xA80 0xAFF then .gu
  else if hasCharInRange text 0xC80 0xCFF then .kn
  else if hasCharInRange text 0xD00 0xD7F then .ml
  else if hasCharInRange text 0xA00 0xA7F then .pa
  else .en

/-- The word-by-word mock dictionary, in source insertion order (empty for
every language other than Hindi, Tamil and Telugu). -/
def mockDict : LanguageCode → List (String × String)
  | .hi =>
    [("hello", "नमस्ते"), ("thank you", "धन्यवाद"), ("yes", "हाँ"), ("no", "नहीं"),
     ("price", "मूल्य"), ("offer", "प्रस्ताव"), ("accept", "स्वीकार"), ("reject", "अस्वीकार"),
     ("good", "अच्छा"), ("fair", "उचित"), ("too high", "बहुत अधिक"), ("too low", "बहुत कम"),
     ("per kg", "प्रति किलो"), ("per quintal", "प्रति क्विंटल"), ("market", "बाजार"),
     ("today", "आज")]
  | .ta =>
    [("hello", "வணக்கம்"), ("thank you", "நன்றி"), ("yes", "ஆம்"), ("no", "இல்லை"),
     ("price", "விலை"), ("offer", "சலுகை"), ("accept", "ஏற்கவும்"), ("reject", "நிராகரி"),
     ("good", "நல்லது"), ("fair", "நியாயமான"), ("too high", "மிக அதிகம்"),
     ("too low", "மிக குறைவு"), ("per kg", "கிலோவுக்கு"), ("per quintal", "குவிண்டலுக்கு"),
     ("market", "சந்தை"), ("today", "இன்று")]
  | .te =>
    [("hello", "నమస్కారం"), ("thank you", "ధన్యవాదాలు"), ("yes", "అవును"), ("no", "కాదు"),
     ("price", "ధర"), ("offer", "ఆఫర్"), ("accept", "అంగీకరించు"), ("reject", "తిరస్కరించు"),
     ("good", "మంచి"), ("fair", "న్యాయమైన"), ("too high", "చాలా ఎక్కువ"),
     ("too low", "చాలా తక్కువ"), ("per kg", "కిలోకు"), ("per quintal", "క్వింటల్‌కు"),
     ("market", "మార్కెట్"), ("today", "ఈరోజు")]
  | _ => []

/-- mockTranslation: return empty or already-target-language text as is;
otherwise lowercase the text, replace every dictionary phrase word-bounded
and case-insensitively, and when nothing was replaced return the original
text behind a language-name tag. -/
def mockTranslation (text : String) (toLang : LanguageCode) : String :=
  if String.mk (trimChars text.data) = "" then text
  else if mockLanguageDetection text = toLang then text
  else
    let lowered := String.mk (lowerChars text.data)
    let translated := (mockDict toLang).foldl
      (fun acc p => String.mk (replaceWordAll acc.data p.1.data p.2.data)) lowered
    if translated = lowered then
      String.mk ("[".data ++ (languageName toLang).data ++ "] ".data ++ text.data)
    else translated

/-- A pluggable Google Translate client: text and language pair to either a
translation or a thrown error. -/
abbrev TranslationClient := String → LanguageCode → LanguageCode → Except String String

/-- performTranslation: use the mock when mock mode is on or no client is
configured; otherwise call the client, catching any client error and
falling back to the mock (source lines 1167-1179). -/
def performTranslation (useMockTranslation : Bool) (translateClient : Option TranslationClient)
    (text : String) (fromLang toLang : LanguageCode) : String :=
  if useMockTranslation then mockTranslation text toLang
  else
    match translateClient with
    | none => mockTranslation text toLang
    | some client =>
      match client text fromLang toLang with
      | .ok translation => translation
      | .error _ => mockTranslation text toLang

/-- The catch-branch result of translateMessage (source lines 932-941):
original text, zero confidence, no preserved terms. -/
def degradedResult (now : ℕ) (text : String) (fromLang toLang : LanguageCode) :
    TranslationResult :=
  { translatedText := text, confidence := 0, originalText := text, fromLanguage := fromLang
    toLanguage := toLang, preservedTerms := [], timestamp := now }

/-- The outcome of one translateMessage call: the returned result, the cache
after the call, and whether performTranslation was invoked. -/
structure TranslateOutcome where
  result : TranslationResult
  cache : TranslationCache
  backendInvoked : Bool
deriving DecidableEq

/-- translateMessage: serve from the cache when possible; synthesize an
identity result for equal language codes; otherwise extract commercial
terms, translate via the backend, restore the terms, score confidence and
cache the result.  No expression of the try block can throw in this model:
client errors are caught inside performTranslation, and every other step is
total, so the catch branch producing degradedResult is unreachable. -/
def translateMessage (now : ℕ) (useMockTranslation : Bool)
    (translateClient : Option TranslationClient)
    (text : String) (fromLang toLang : LanguageCode)
    (cache : TranslationCache) : TranslateOutcome :=
  let cacheKey := getCacheKey text fromLang toLang
  match getFromCache now cacheKey cache with
  | (some cached, c1) => { result := cached, cache := c1, backendInvoked := false }
  | (none, c1) =>
    if fromLang = toLang then
      { result :=
          { translatedText := text, confidence := 1, originalText := text
            fromLanguage := fromLang, toLanguage := toLang, preservedTerms := []
            timestamp := now }
        cache := c1, backendInvoked := false }
    else
      let ext := extractCommercialTerms text
      let translatedText :=
        performTranslation useMockTranslation translateClient ext.1 fromLang toLang
      let finalText := restoreCommercialTerms translatedText ext.2
      let confidence := calculateConfidence text translatedText fromLang toLang
      let result : TranslationResult :=
        { translatedText := finalText, confidence := confidence, originalText := text
          fromLanguage := fromLang, toLanguage := toLang
          preservedTerms := ext.2.map (fun p => p.1), timestamp := now }
      { result := result, cache := addToCache now cacheKey result c1, backendInvoked := true }

/-- shouldFlagForReview: confidence strictly below the review threshold. -/
def shouldFlagForReview (t : TranslationResult) : Bool :=
  decide (t.confidence < CONFIDENCE_THRESHOLD)

/-- No cache entry pairs a language with itself.  This holds for every cache
reachable through translateMessage, because results are only stored on the
distinct-language path. -/
def sameLangFree (c : TranslationCache) : Prop :=
  ∀ e ∈ c, e.key.fromLang ≠ e.key.toLang

/-- A fixed translation result used to populate the concrete cache of the
C2 counterexample (its content is irrelevant to sizes and eviction). -/
def dummyResult : TranslationResult :=
  { translatedText := "x", confidence := 1, originalText := "x", fromLanguage := .en
    toLanguage := .hi, preservedTerms := [], timestamp := 5 }

/-- A cache filled to capacity with distinct keys whose entries were all
last used at time 5 (as produced by MAX_CACHE_SIZE insertions of distinct
texts during one millisecond). -/
def c2FullCache : TranslationCache :=
  (List.range MAX_CACHE_SIZE).map (fun i =>
    { key := { fromLang := .en, toLang := .hi, normText := String.mk (List.replicate (i + 1) 'a') }
      result := dummyResult, usageCount := 1, lastUsed := 5 })

end TranslationServiceDefs

section Helpers

/-- A rounded value is at most a half above its argument. -/
theorem jsRound_le (q : ℚ) : (jsRound q : ℚ) ≤ q + 1/2 := by
  unfold jsRound
  exact_mod_cast Int.floor_le (q + 1/2)

/-- A rounded value is strictly positive once the argument plus a half
reaches one. -/
theorem jsRound_pos (q : ℚ) (h : 1 ≤ q + 1/2) : 0 < jsRound q := by
  unfold jsRound
  have : (1 : ℤ) ≤ ⌊q + 1/2⌋ := by
    rw [Int.le_floor]
    exact_mod_cast h
  omega

/-- Unfolding of the advisor at a nonzero resolved reference price. -/
theorem getNegotiationSuggestion_some (ctx : NegotiationContext) (r : ℚ)
    (hres : resolveReferencePrice ctx = some r) (hr : r ≠ 0) :
    getNegotiationSuggestion ctx = classifyOffer ctx.currentOffer r ctx.previousOffers := by
  unfold getNegotiationSuggestion
  rw [hres]
  simp [hr]

end Helpers

/-- C1: when the caller supplies a nonzero reference price and the offer
exceeds it by more than 15 percent, the advisor returns a polite counter at
round(referencePrice times 1.05); that counter price is strictly below the
offer whenever the reference price is at least 5 (the unrestricted claim
fails, see the counterexample). -/
theorem c1_highOffer_counter (ctx : NegotiationContext) (r : ℚ)
    (hm : ctx.marketPrice = some r) (hr : r ≠ 0)
    (hd : (ctx.currentOffer - r) / r * 100 > 15) :
    getNegotiationSuggestion ctx =
      { type := .counter, suggestedPrice := some (jsRound (r * 1.05)), tone := .polite } ∧
    (5 ≤ r → (jsRound (r * 1.05) : ℚ) < ctx.currentOffer) := by
  have hres : resolveReferencePrice ctx = some r := by
    unfold resolveReferencePrice
    rw [hm]
    simp [hr]
  constructor
  · rw [getNegotiationSuggestion_some ctx r hres hr]
    simp only [classifyOffer]
    rw [if_pos hd]
    simp [generateHighOfferSuggestion]
  · intro h5
    have hr0 : (0 : ℚ) < r := by linarith
    have hoff : r * 1.15 < ctx.currentOffer := by
      have h1 : (15 : ℚ)/100 < (ctx.currentOffer - r) / r := by linarith
      have h2 := (lt_div_iff₀ hr0).mp h1
      nlinarith
    have hb := jsRound_le (r * 1.05)
    have : r * 1.05 + 1/2 ≤ r * 1.15 := by nlinarith
    linarith

/-- C1 witness: the spec scenario referencePrice 20, offer 25 (25 percent
above market) yields the polite counter at 21, strictly below the offer. -/
theorem c1_witness :
    getNegotiationSuggestion ⟨"tomato", some 20, 25, [], "en", "hi"⟩ =
      { type := .counter, suggestedPrice := some (jsRound ((20 : ℚ) * 1.05)), tone := .polite } ∧
    (jsRound ((20 : ℚ) * 1.05) : ℚ) < 25 := by
  have h := c1_highOffer_counter ⟨"tomato", some 20, 25, [], "en", "hi"⟩ 20 rfl
    (by norm_num) (by norm_num)
  exact ⟨h.1, h.2 (by norm_num)⟩

/-- C1 counterexample: with reference price 1/2 and offer 3/5 the offer is
20 percent above market, yet the suggested counter price round(0.525) = 1 is
not strictly less than the offer 3/5. -/
theorem c1_counterexample :
    (((3 : ℚ)/5 - 1/2) / (1/2) * 100 > 15) ∧
    getNegotiationSuggestion ⟨"tomato", some (1/2), 3/5, [], "en", "hi"⟩ =
      { type := .counter, suggestedPrice := some 1, tone := .polite } ∧
    ¬ ((1 : ℚ) < 3/5) := by
  refine ⟨by norm_num, ?_, by norm_num⟩
  decide

/-- C4: a suggested price, when present, is strictly positive provided the
resolved reference price is at least 1 (for the advisor) respectively the two
offers sum to at least 1 (for suggestCompromise); the unrestricted claim
fails, see the counterexample. -/
theorem c4_suggestedPrice_pos :
    (∀ (ctx : NegotiationContext) (r : ℚ), resolveReferencePrice ctx = some r → 1 ≤ r →
      ∀ p, (getNegotiationSuggestion ctx).suggestedPrice = some p → 0 < p) ∧
    (∀ a b : ℚ, 1 ≤ a + b →
      ∀ p, (suggestCompromise a b).suggestedPrice = some p → 0 < p) := by
  constructor
  · intro ctx r hres h1 p hp
    have hr0 : (0 : ℚ) < r := by linarith
    rw [getNegotiationSuggestion_some ctx r hres (ne_of_gt hr0)] at hp
    simp only [classifyOffer] at hp
    split_ifs at hp with h15 hlow hfair
    · have h2 := Option.some.inj hp
      exact h2 ▸ jsRound_pos _ (by nlinarith)
    · have h2 := Option.some.inj hp
      exact h2 ▸ jsRound_pos _ (by nlinarith)
    · unfold generateFairOfferSuggestion at hp
      by_cases hc : (!ctx.previousOffers.isEmpty) = true
      · rw [if_pos hc] at hp
        simp at hp
      · rw [if_neg hc] at hp
        have h2 := Option.some.inj hp
        have hd5 : -(5 : ℚ) ≤ (ctx.currentOffer - r) / r * 100 := (abs_le.mp hfair).1
        have hq2 : -(1 : ℚ)/20 ≤ (ctx.currentOffer - r) / r := by linarith
        have hq3 : -(1 : ℚ)/20 * r ≤ ctx.currentOffer - r := (le_div_iff₀ hr0).mp hq2
        exact h2 ▸ jsRound_pos _ (by nlinarith)
    · unfold generateModerateOfferSuggestion at hp
      rw [ite_self] at hp
      have h2 := Option.some.inj hp
      exact h2 ▸ jsRound_pos _ (by nlinarith)
  · intro a b hab p hp
    have h2 := Option.some.inj hp
    exact h2 ▸ jsRound_pos _ (by linarith)

/-- C4 witness: reference price 20 with offer 25 yields positive suggested
price 21; compromise between 100 and 120 yields positive 110. -/
theorem c4_witness : (0 : ℤ) < 21 ∧ (0 : ℤ) < 110 := by
  constructor
  · exact c4_suggestedPrice_pos.1 ⟨"tomato", some 20, 25, [], "en", "hi"⟩ 20
      (by norm_num [resolveReferencePrice]) (by norm_num) 21 (by decide)
  · exact c4_suggestedPrice_pos.2 100 120 (by norm_num) 110 (by decide)

/-- C4 counterexample: suggestCompromise 0 0 carries suggested price 0,
which is not strictly positive; likewise the advisor at reference price 1/5
and offer 3/10 (50 percent above market) suggests round(0.21) = 0. -/
theorem c4_counterexample :
    (suggestCompromise 0 0).suggestedPrice = some 0 ∧
    (getNegotiationSuggestion ⟨"tomato", some (1/5), 3/10, [], "en", "hi"⟩).suggestedPrice
      = some 0 ∧
    ¬ ((0 : ℤ) < 0) := by
  refine ⟨by decide, by decide, by norm_num⟩

/-- C9: the advisor returns the neutral tone exactly on the info path (no
reference price); every price-based suggestion and every compromise
suggestion is polite or firm, never neutral. -/
theorem c9_neutral_iff_info :
    (∀ ctx : NegotiationContext,
      (getNegotiationSuggestion ctx).tone = .neutral ↔
        (getNegotiationSuggestion ctx).type = .info) ∧
    (∀ a b : ℚ, (suggestCompromise a b).tone ≠ .neutral) := by
  constructor
  · intro ctx
    cases hres : resolveReferencePrice ctx with
    | none =>
      unfold getNegotiationSuggestion
      rw [hres]
      simp [noPriceInfoSuggestion]
    | some r =>
      by_cases hr : r = 0
      · unfold getNegotiationSuggestion
        rw [hres]
        simp [hr, noPriceInfoSuggestion]
      · rw [getNegotiationSuggestion_some ctx r hres hr]
        simp only [classifyOffer]
        split_ifs with h15 hlow hfair
        · simp [generateHighOfferSuggestion]
        · unfold generateLowOfferSuggestion
          cases ctx.previousOffers.isEmpty <;> simp
        · unfold generateFairOfferSuggestion
          cases hb : (!ctx.previousOffers.isEmpty) <;> simp [hb]
        · unfold generateModerateOfferSuggestion
          split_ifs <;> simp
  · intro a b
    simp [suggestCompromise]

/-- C10: a caller-supplied market price of 0 is falsy and treated exactly as
an absent market price (catalog fallback, then the info suggestion when the
catalog has no match), so the percentage difference is only ever computed
against a nonzero reference price. -/
theorem c10_zero_marketPrice :
    (∀ ctx : NegotiationContext,
      getNegotiationSuggestion {ctx with marketPrice := some 0} =
        getNegotiationSuggestion {ctx with marketPrice := none}) ∧
    (∀ ctx : NegotiationContext, ctx.marketPrice = some 0 →
      searchCommodity ctx.commodity = none →
      getNegotiationSuggestion ctx = noPriceInfoSuggestion) ∧
    (∀ ctx : NegotiationContext,
      getNegotiationSuggestion ctx = noPriceInfoSuggestion ∨
        ∃ r, resolveReferencePrice ctx = some r ∧ r ≠ 0) := by
  refine ⟨?_, ?_, ?_⟩
  · intro ctx
    unfold getNegotiationSuggestion resolveReferencePrice
    simp
  · intro ctx hm hs
    unfold getNegotiationSuggestion resolveReferencePrice catalogReferencePrice
    rw [hm, hs]
    simp
  · intro ctx
    cases hres : resolveReferencePrice ctx with
    | none =>
      left
      unfold getNegotiationSuggestion
      rw [hres]
    | some r =>
      by_cases hr : r = 0
      · left
        unfold getNegotiationSuggestion
        rw [hres, hr]
        simp
      · right
        exact ⟨r, rfl, hr⟩

set_option maxRecDepth 8000 in
/-- C10 witness: with marketPrice 0 and a commodity the catalog cannot
resolve, the advisor returns the neutral info suggestion, identically to the
absent-market-price case. -/
theorem c10_witness :
    getNegotiationSuggestion ⟨"zzz", some 0, 100, [], "en", "hi"⟩ = noPriceInfoSuggestion ∧
    getNegotiationSuggestion ⟨"zzz", some 0, 100, [], "en", "hi"⟩ =
      getNegotiationSuggestion ⟨"zzz", none, 100, [], "en", "hi"⟩ := by
  constructor
  · exact c10_zero_marketPrice.2.1 ⟨"zzz", some 0, 100, [], "en", "hi"⟩ rfl (by decide)
  · exact c10_zero_marketPrice.1 ⟨"zzz", some 0, 100, [], "en", "hi"⟩

set_option maxRecDepth 8000 in
/-- C8: resolving the exact canonical name of any catalog record returns
that record (the exact-equality similarity-1 path wins). -/
theorem c8_exact_name_resolves :
    ∀ c ∈ SAMPLE_PRICES, searchCommodity c.name = some c := by decide

/-- C8 witness: the canonical name Tomato resolves to the tomato record. -/
theorem c8_witness : searchCommodity tomatoRecord.name = some tomatoRecord :=
  c8_exact_name_resolves tomatoRecord (by simp [SAMPLE_PRICES])

section CacheLemmas

/-- Specification of the minimum scan underlying findOldestKey: folding the
strict-improvement step either leaves the accumulator untouched (no entry
is strictly older) or lands on the first entry attaining the minimum
last-used time below the accumulator. -/
theorem findOldest_foldl_spec (l : List CacheEntry) (acc : Option CacheKey × ℕ) :
    (l.foldl (fun acc e => if e.lastUsed < acc.2 then (some e.key, e.lastUsed) else acc) acc = acc
      ∧ ∀ e ∈ l, acc.2 ≤ e.lastUsed) ∨
    (∃ f ∈ l,
      l.foldl (fun acc e => if e.lastUsed < acc.2 then (some e.key, e.lastUsed) else acc) acc
          = (some f.key, f.lastUsed)
        ∧ f.lastUsed < acc.2
        ∧ ∀ x ∈ l, f.lastUsed ≤ x.lastUsed) := by
  induction l generalizing acc with
  | nil =>
    left
    exact ⟨rfl, by simp⟩
  | cons c t ih =>
    simp only [List.foldl_cons]
    by_cases hc : c.lastUsed < acc.2
    · rw [if_pos hc]
      rcases ih (some c.key, c.lastUsed) with ⟨heq, hall⟩ | ⟨f, hf, heq, hlt, hall⟩
      · right
        refine ⟨c, List.mem_cons_self c t, heq, hc, ?_⟩
        intro x hx
        rcases List.mem_cons.mp hx with rfl | hx
        · exact le_refl _
        · exact hall x hx
      · right
        refine ⟨f, List.mem_cons_of_mem c hf, heq, lt_trans hlt hc, ?_⟩
        intro x hx
        rcases List.mem_cons.mp hx with rfl | hx
        · exact le_of_lt hlt
        · exact hall x hx
    · rw [if_neg hc]
      push_neg at hc
      rcases ih acc with ⟨heq, hall⟩ | ⟨f, hf, heq, hlt, hall⟩
      · left
        refine ⟨heq, ?_⟩
        intro x hx
        rcases List.mem_cons.mp hx with rfl | hx
        · exact hc
        · exact hall x hx
      · right
        refine ⟨f, List.mem_cons_of_mem c hf, heq, hlt, ?_⟩
        intro x hx
        rcases List.mem_cons.mp hx with rfl | hx
        · exact le_trans (le_of_lt hlt) hc
        · exact hall x hx

/-- When every entry was last used at or after now, eviction removes
nothing. -/
theorem evictOldest_noop (now : ℕ) (c : TranslationCache)
    (h : ∀ e ∈ c, now ≤ e.lastUsed) : evictOldestCacheEntry now c = c := by
  unfold evictOldestCacheEntry findOldestKey
  rcases findOldest_foldl_spec c ((none : Option CacheKey), now) with ⟨heq, _⟩ | ⟨f, hf, heq, hlt, _⟩
  · rw [heq]
  · exact absurd hlt (not_lt.mpr (h f hf))

/-- When the cache keys are pairwise distinct, an entry removed by eviction
was last used strictly before now and no later than every entry. -/
theorem evictOldest_removed_min (now : ℕ) (c : TranslationCache) (e : CacheEntry)
    (hnodup : (c.map CacheEntry.key).Nodup) (he : e ∈ c)
    (hout : e ∉ evictOldestCacheEntry now c) :
    e.lastUsed < now ∧ ∀ x ∈ c, e.lastUsed ≤ x.lastUsed := by
  unfold evictOldestCacheEntry findOldestKey at hout
  rcases findOldest_foldl_spec c ((none : Option CacheKey), now) with ⟨heq, _⟩ | ⟨f, hf, heq, hlt, hall⟩
  · rw [heq] at hout
    exact absurd he hout
  · rw [heq] at hout
    have hkey : e.key = f.key := by
      by_contra hne
      exact hout (List.mem_filter.mpr ⟨he, by simp [hne]⟩)
    have hef : e = f := List.inj_on_of_nodup_map hnodup he hf hkey
    subst hef
    exact ⟨hlt, hall⟩

/-- Map.set grows the cache by at most one entry. -/
theorem cacheSet_length_le (c : TranslationCache) (e : CacheEntry) :
    (cacheSet c e).length ≤ c.length + 1 := by
  unfold cacheSet
  split_ifs with h
  · simp
  · simp

/-- When some entry was last used strictly before now, eviction strictly
shrinks the cache. -/
theorem evictOldest_length_lt (now : ℕ) (c : TranslationCache)
    (h : ∃ e ∈ c, e.lastUsed < now) :
    (evictOldestCacheEntry now c).length < c.length := by
  unfold evictOldestCacheEntry findOldestKey
  rcases findOldest_foldl_spec c ((none : Option CacheKey), now) with ⟨heq, hall⟩ | ⟨f, hf, heq, hlt, hall⟩
  · obtain ⟨e, he, hee⟩ := h
    exact absurd hee (not_lt.mpr (hall e he))
  · rw [heq]
    refine List.length_filter_lt_length_iff_exists.mpr ⟨f, hf, ?_⟩
    simp

/-- Entries of a Map.set state with a key pairing distinct languages keep
the no-identity-language-pair invariant. -/
theorem sameLangFree_cacheSet (c : TranslationCache) (e : CacheEntry)
    (hc : sameLangFree c) (he : e.key.fromLang ≠ e.key.toLang) :
    sameLangFree (cacheSet c e) := by
  unfold cacheSet
  split_ifs with h
  · intro x hx
    rcases List.mem_map.mp hx with ⟨y, hy, rfl⟩
    by_cases hk : (y.key == e.key) = true
    · rw [if_pos hk]
      exact he
    · rw [if_neg hk]
      exact hc y hy
  · intro x hx
    rcases List.mem_append.mp hx with hx | hx
    · exact hc x hx
    · rw [List.mem_singleton.mp hx]
      exact he

/-- Eviction preserves the no-identity-language-pair invariant. -/
theorem sameLangFree_evict (now : ℕ) (c : TranslationCache) (hc : sameLangFree c) :
    sameLangFree (evictOldestCacheEntry now c) := by
  unfold evictOldestCacheEntry
  cases (findOldestKey now c).1 with
  | some k =>
    intro x hx
    exact hc x (List.mem_of_mem_filter hx)
  | none => exact hc

/-- addToCache with a distinct-language key preserves the
no-identity-language-pair invariant. -/
theorem sameLangFree_addToCache (now : ℕ) (key : CacheKey) (result : TranslationResult)
    (c : TranslationCache) (hc : sameLangFree c) (hk : key.fromLang ≠ key.toLang) :
    sameLangFree (addToCache now key result c) := by
  unfold addToCache
  apply sameLangFree_cacheSet
  · split_ifs with h
    · exact sameLangFree_evict now c hc
    · exact hc
  · exact hk

end CacheLemmas

/-- C2: after addToCache the cache stays within MAX_CACHE_SIZE provided it
was within bounds and, when full, some entry was last used strictly before
the insertion time (without that proviso the bound fails, see the
counterexample); and whenever eviction removes an entry of a
duplicate-free-keyed cache, that entry was least recently used. -/
theorem c2_cache_bound_and_lru :
    (∀ (now : ℕ) (key : CacheKey) (result : TranslationResult) (c : TranslationCache),
      c.length ≤ MAX_CACHE_SIZE →
      (c.length < MAX_CACHE_SIZE ∨ ∃ e ∈ c, e.lastUsed < now) →
      (addToCache now key result c).length ≤ MAX_CACHE_SIZE) ∧
    (∀ (now : ℕ) (c : TranslationCache) (e : CacheEntry),
      (c.map CacheEntry.key).Nodup → e ∈ c → e ∉ evictOldestCacheEntry now c →
      e.lastUsed < now ∧ ∀ x ∈ c, e.lastUsed ≤ x.lastUsed) := by
  constructor
  · intro now key result c hle hcond
    simp only [addToCache]
    by_cases hcap : MAX_CACHE_SIZE ≤ c.length
    · rw [if_pos hcap]
      have hx : ∃ e ∈ c, e.lastUsed < now := by
        rcases hcond with h | h
        · omega
        · exact h
      have h1 := evictOldest_length_lt now c hx
      have h2 := cacheSet_length_le (evictOldestCacheEntry now c)
        { key := key, result := result, usageCount := 1, lastUsed := now }
      omega
    · rw [if_neg hcap]
      have h2 := cacheSet_length_le c
        { key := key, result := result, usageCount := 1, lastUsed := now }
      omega
  · intro now c e hnodup he hout
    exact evictOldest_removed_min now c e hnodup he hout

/-- C2 witness: inserting into a one-entry cache stays within bounds, and
the entry evicted from a two-entry over-age cache is the least recently
used one. -/
theorem c2_witness :
    (addToCache 7 ⟨.en, .hi, "t"⟩ dummyResult
      [⟨⟨.en, .hi, "s"⟩, dummyResult, 1, 3⟩]).length ≤ MAX_CACHE_SIZE ∧
    ((⟨⟨.en, .hi, "a"⟩, dummyResult, 1, 0⟩ : CacheEntry).lastUsed < 7 ∧
      ∀ x ∈ ([⟨⟨.en, .hi, "a"⟩, dummyResult, 1, 0⟩,
              ⟨⟨.en, .hi, "b"⟩, dummyResult, 1, 5⟩] : TranslationCache),
        (⟨⟨.en, .hi, "a"⟩, dummyResult, 1, 0⟩ : CacheEntry).lastUsed ≤ x.lastUsed) := by
  constructor
  · exact c2_cache_bound_and_lru.1 7 ⟨.en, .hi, "t"⟩ dummyResult
      [⟨⟨.en, .hi, "s"⟩, dummyResult, 1, 3⟩]
      (by norm_num [MAX_CACHE_SIZE])
      (Or.inl (by norm_num [MAX_CACHE_SIZE]))
  · exact c2_cache_bound_and_lru.2 7
      [⟨⟨.en, .hi, "a"⟩, dummyResult, 1, 0⟩, ⟨⟨.en, .hi, "b"⟩, dummyResult, 1, 5⟩]
      ⟨⟨.en, .hi, "a"⟩, dummyResult, 1, 0⟩
      (by decide) (by decide) (by decide)

/-- C2 counterexample: a cache at capacity whose entries were all last used
at the current millisecond evicts nothing (the strict comparison against
Date.now() never fires), so addToCache grows it to MAX_CACHE_SIZE + 1
entries, violating the claimed invariant. -/
theorem c2_counterexample :
    c2FullCache.length = MAX_CACHE_SIZE ∧
    MAX_CACHE_SIZE <
      (addToCache 5 ⟨.en, .hi, ""⟩ dummyResult c2FullCache).length := by
  have hlen : c2FullCache.length = MAX_CACHE_SIZE := by
    simp [c2FullCache]
  refine ⟨hlen, ?_⟩
  have hall : ∀ e ∈ c2FullCache, (5 : ℕ) ≤ e.lastUsed := by
    intro e he
    rcases List.mem_map.mp he with ⟨i, hi, rfl⟩
    exact le_refl 5
  have hnoop := evictOldest_noop 5 c2FullCache hall
  have hany : c2FullCache.any
      (fun x => x.key == ({ fromLang := .en, toLang := .hi, normText := "" } : CacheKey))
        = false := by
    rw [List.any_eq_false]
    intro x hx
    rcases List.mem_map.mp hx with ⟨i, hi, rfl⟩
    simp only [beq_iff_eq, CacheKey.mk.injEq]
    intro h
    have hdata := congrArg String.data h.2.2
    simp at hdata
  have hcap : MAX_CACHE_SIZE ≤ c2FullCache.length := by
    rw [hlen]
  unfold addToCache
  rw [if_pos hcap, hnoop]
  unfold cacheSet
  rw [if_neg (by simp [hany])]
  rw [List.length_append, hlen]
  simp

/-- C3: for caches satisfying the reachable-state invariant that no entry
pairs a language with itself, a same-language translate call returns the
identity result with confidence 1, leaves the cache untouched and never
invokes the backend; and every translate call preserves that invariant. -/
theorem c3_same_language_identity :
    (∀ (now : ℕ) (useMock : Bool) (client : Option TranslationClient) (text : String)
        (lang : LanguageCode) (cache : TranslationCache), sameLangFree cache →
      translateMessage now useMock client text lang lang cache =
        { result :=
            { translatedText := text, confidence := 1, originalText := text
              fromLanguage := lang, toLanguage := lang, preservedTerms := []
              timestamp := now }
          cache := cache, backendInvoked := false }) ∧
    (∀ (now : ℕ) (useMock : Bool) (client : Option TranslationClient) (text : String)
        (fromLang toLang : LanguageCode) (cache : TranslationCache), sameLangFree cache →
      sameLangFree (translateMessage now useMock client text fromLang toLang cache).cache) := by
  constructor
  · intro now um cl text lang cache hfree
    have hmiss : cache.find? (fun x => x.key == getCacheKey text lang lang) = none := by
      rw [List.find?_eq_none]
      intro x hx
      have hinv := hfree x hx
      simp only [beq_iff_eq]
      intro hk
      rw [hk] at hinv
      exact hinv rfl
    simp only [translateMessage, getFromCache, hmiss]
    simp
  · intro now um cl text fromLang toLang cache hfree
    simp only [translateMessage, getFromCache]
    cases hfind : cache.find? (fun x => x.key == getCacheKey text fromLang toLang) with
    | some e =>
      dsimp only
      have he := List.mem_of_find?_eq_some hfind
      exact sameLangFree_cacheSet cache _ hfree (hfree e he)
    | none =>
      dsimp only
      by_cases hft : fromLang = toLang
      · rw [if_pos hft]
        exact hfree
      · rw [if_neg hft]
        exact sameLangFree_addToCache _ _ _ _ hfree hft

/-- C3 witness: a Tamil-to-Tamil call on the empty cache returns the
identity result with confidence 1, an unchanged cache and no backend
invocation. -/
theorem c3_witness :
    translateMessage 5 true none "abc" .ta .ta [] =
      { result :=
          { translatedText := "abc", confidence := 1, originalText := "abc"
            fromLanguage := .ta, toLanguage := .ta, preservedTerms := [], timestamp := 5 }
        cache := [], backendInvoked := false } :=
  c3_same_language_identity.1 5 true none "abc" .ta [] (by simp [sameLangFree])

/-- C5: every translate call with distinct languages reaching the scoring
step returns as confidence exactly the claimed function of the original
text and the backend output: base 0.9, minus 0.1 for originals shorter than
10 characters, minus 0.05 for originals longer than 500 characters, forced
to 0.5 when the backend output is byte-identical to the original despite
the differing language codes, clamped to the unit interval. -/
theorem c5_confidence_formula (now : ℕ) (useMock : Bool) (client : Option TranslationClient)
    (text : String) (fromLang toLang : LanguageCode) (cache : TranslationCache)
    (hne : fromLang ≠ toLang)
    (hmiss : cache.find? (fun x => x.key == getCacheKey text fromLang toLang) = none) :
    (translateMessage now useMock client text fromLang toLang cache).result.confidence =
      max 0 (min 1
        (if text = performTranslation useMock client (extractCommercialTerms text).1 fromLang toLang
            ∧ fromLang ≠ toLang
         then 0.5
         else (0.9 - (if text.length < 10 then (0.1 : ℚ) else 0)
                   - (if text.length > 500 then (0.05 : ℚ) else 0)))) := by
  simp only [translateMessage, getFromCache, hmiss]
  rw [if_neg hne]
  simp only [calculateConfidence]
  split_ifs <;> norm_num

/-- C5 witness: the short text hello translated en to hi on an empty cache
scores 0.9 - 0.1 = 0.8 by the claimed formula. -/
theorem c5_witness :
    (translateMessage 0 true none "hello" .en .hi []).result.confidence =
      max 0 (min 1
        (if "hello" = performTranslation true none (extractCommercialTerms "hello").1 .en .hi
            ∧ (LanguageCode.en ≠ .hi)
         then 0.5
         else (0.9 - (if ("hello" : String).length < 10 then (0.1 : ℚ) else 0)
                   - (if ("hello" : String).length > 500 then (0.05 : ℚ) else 0)))) :=
  c5_confidence_formula 0 true none "hello" .en .hi [] (by decide) rfl

set_option maxRecDepth 10000 in
/-- C6: in the spec scenario the currency amount is preserved verbatim in
the translated output and reported among the preserved terms (the
unrestricted for-every-text claim fails, see the counterexample: the mock
backend lowercases the working text whenever one of its dictionary words is
replaced, destroying the uppercase placeholders before restoration). -/
theorem c6_currency_scenario :
    containsStr
        (translateMessage 0 true none "The price is ₹500 per kg" .en .hi []).result.translatedText
        "₹500" = true ∧
    "₹500" ∈ (translateMessage 0 true none "The price is ₹500 per kg" .en .hi []).result.preservedTerms ∧
    (translateMessage 0 true none "The price is ₹500 per kg" .en .hi []).result.preservedTerms ≠ [] := by
  refine ⟨?_, ?_, ?_⟩ <;> decide

set_option maxRecDepth 10000 in
/-- C6 counterexample: the input text hello followed by the currency amount
contains that amount verbatim, and the result reports it among preserved
terms, yet the translated output does not contain it: the mock translation
replaced hello and thereby returned the lowercased working text, whose
lowercased placeholder the case-sensitive restoration cannot find. -/
theorem c6_counterexample :
    containsStr "hello ₹500" "₹500" = true ∧
    containsStr
        (translateMessage 0 true none "hello ₹500" .en .hi []).result.translatedText
        "₹500" = false ∧
    "₹500" ∈ (translateMessage 0 true none "hello ₹500" .en .hi []).result.preservedTerms := by
  refine ⟨?_, ?_, ?_⟩ <;> decide

/-- C7: a backend error is never propagated, but the call degrades to the
mock translation fallback rather than to the original-text
zero-confidence result of the claim: whenever the client errors on the
placeholder-substituted text, the outcome is identical to the outcome of
the always-mock configuration (the claimed original-text zero-confidence
degradation does not occur, see the counterexample). -/
theorem c7_backend_error_falls_back (now : ℕ) (client : TranslationClient)
    (text : String) (fromLang toLang : LanguageCode) (cache : TranslationCache) (e : String)
    (herr : client (extractCommercialTerms text).1 fromLang toLang = Except.error e) :
    translateMessage now false (some client) text fromLang toLang cache =
      translateMessage now true none text fromLang toLang cache := by
  have hp : performTranslation false (some client) (extractCommercialTerms text).1 fromLang toLang
      = performTranslation true none (extractCommercialTerms text).1 fromLang toLang := by
    simp only [performTranslation, herr]
    simp
  simp only [translateMessage, hp]

/-- C7 witness: a client that always throws yields exactly the mock-backed
outcome. -/
theorem c7_witness :
    translateMessage 0 false (some (fun _ _ _ => Except.error "boom")) "hello" .en .hi [] =
      translateMessage 0 true none "hello" .en .hi [] :=
  c7_backend_error_falls_back 0 (fun _ _ _ => Except.error "boom") "hello" .en .hi [] "boom" rfl

set_option maxRecDepth 10000 in
/-- C7 counterexample: with a throwing backend the returned result is the
mock translation of the text with confidence 0.9, not the original text
with confidence 0 that the claim asserts. -/
theorem c7_counterexample :
    ((fun _ _ _ => Except.error "boom" : TranslationClient) "hello friend" .en .hi
        = Except.error "boom") ∧
    (translateMessage 0 false (some (fun _ _ _ => Except.error "boom"))
        "hello friend" .en .hi []).result.translatedText ≠ "hello friend" ∧
    (translateMessage 0 false (some (fun _ _ _ => Except.error "boom"))
        "hello friend" .en .hi []).result.confidence ≠ 0 := by
  refine ⟨rfl, ?_, ?_⟩ <;> decide
